import Mathlib

/-!
Shallow embedding of `src/polymarket_trader.py`, the Polymarket paper
trading system (mean-reversion strategy on 15-minute up/down markets).

Modelling conventions:
* Python floats (prices, sizes, P&L) are rationals (`ℚ`);
* Python ints (epoch times, counters) are `Int`;
* `None` results, and exceptions that propagate to the caller, are `Option`
  (`none` models the uncaught exception / absent value);
* the trades-journal JSON object is the structure `Journal`;
* the in-memory dict produced by `get_market_data` is `MarketData`;
* `str.split("-")` is `slugParts`, `int(...)` is `pyInt` (restricted to an
  optional sign followed by decimal digits, which covers every slug the
  program builds), and the Python substring test `needle in hay` is
  `strContains`.
-/

namespace PolymarketTrader

/-- The `CONFIG` dictionary at the top of `polymarket_trader.py`
(the `markets` sub-table is handled separately by `marketConfig`). -/
structure Config where
  max_position_size : ℚ
  buy_threshold : ℚ
  sell_threshold : ℚ
  circuit_breaker : Int

/-- Definition `CONFIG = {"max_position_size": 10.00, "buy_threshold": 0.40,
"sell_threshold": 0.60, "circuit_breaker": 3, ...}`. -/
def CONFIG : Config :=
  { max_position_size := 10.00
    buy_threshold := 0.40
    sell_threshold := 0.60
    circuit_breaker := 3 }

/-- Lookup `CONFIG["markets"]`: `CONFIG["markets"].get(asset,
CONFIG["markets"]["btc"])`, returning the `(name, slug_prefix)` pair;
an unknown asset key falls back to the btc entry. -/
def marketConfig (asset : String) : String × String :=
  if asset = "btc" then ("Bitcoin", "btc-updown-15m")
  else if asset = "eth" then ("Ethereum", "eth-updown-15m")
  else ("Bitcoin", "btc-updown-15m")

/-- The market-snapshot dict returned by `get_market_data`. -/
structure MarketData where
  asset : String
  name : String
  slug : String
  question : String
  outcomes : List String
  prices : List ℚ
  up_price : ℚ
  down_price : ℚ
  volume : ℚ
  liquidity : ℚ
  end_date : String
  timestamp : Int
deriving Repr

/-- A trade record as built by `execute_trade` and mutated by
`check_closed_positions`. -/
structure Trade where
  timestamp : String
  asset : String
  name : String
  slug : String
  action : String
  price : ℚ
  size : ℚ
  up_price : ℚ
  down_price : ℚ
  volume : ℚ
  status : String
  pnl : ℚ
deriving Repr

/-- The persisted journal object
`{"trades": [...], "consecutive_losses": int, "total_pnl": float}`. -/
structure Journal where
  trades : List Trade
  consecutive_losses : Int
  total_pnl : ℚ
deriving Repr

/-- Function `load_trades()`: the stored file content when it exists, else the
default empty journal. -/
def load_trades (stored : Option Journal) : Journal :=
  stored.getD { trades := [], consecutive_losses := 0, total_pnl := 0 }

/-- Digit-sequence accumulator for `pyInt`. -/
def pyDigits : List Char → Nat → Option Nat
  | [], n => some n
  | c :: cs, n => if c.isDigit then pyDigits cs (n * 10 + (c.toNat - 48)) else none

/-- Python `int(s)` on a string of an optional sign followed by decimal
digits; `none` models the `ValueError` raised on anything else. -/
def pyInt : String → Option Int
  | s =>
    match s.data with
    | [] => none
    | c :: cs =>
      if c = '-' then
        match cs with
        | [] => none
        | _ => (pyDigits cs 0).map (fun n => -(n : Int))
      else (pyDigits (c :: cs) 0).map (fun n => (n : Int))

/-- Python `s.split("-")` (split on the single character `-`,
keeping empty pieces). -/
def slugParts (s : String) : List String :=
  (s.data.splitOn '-').map (fun l => ⟨l⟩)

/-- Bool test that `small` is a prefix of `big` (character lists). -/
def listStarts : List Char → List Char → Bool
  | [], _ => true
  | _ :: _, [] => false
  | a :: as, b :: bs => (a == b) && listStarts as bs

/-- Bool test that `needle` occurs somewhere inside `hay`
(character lists). -/
def listHasSub (needle : List Char) : List Char → Bool
  | [] => listStarts needle []
  | c :: rest => listStarts needle (c :: rest) || listHasSub needle rest

/-- Python substring test `needle in hay`. -/
def strContains (hay needle : String) : Bool :=
  listHasSub needle.data hay.data

/-- Abstraction of the `reason` string returned by `should_trade`:
`circuit_breaker` is the literal `"circuit_breaker"`, the other three
constructors stand for the `BUY signal: ...` / `SELL signal: ...` /
`HOLD: ...` formatted strings. -/
inductive Reason where
  | circuit_breaker
  | buySignal
  | sellSignal
  | hold
deriving Repr, DecidableEq

/-- Function `should_trade(market_data, trades)`: circuit breaker first, then the
mean reversion thresholds on the up price. -/
def should_trade (market_data : MarketData) (trades : Journal) : Bool × Reason :=
  if trades.consecutive_losses ≥ CONFIG.circuit_breaker then
    (false, .circuit_breaker)
  else if market_data.up_price < CONFIG.buy_threshold then
    (true, .buySignal)
  else if market_data.up_price > CONFIG.sell_threshold then
    (true, .sellSignal)
  else
    (false, .hold)

/-- The trade dict literal built inside `execute_trade` (the
`datetime.now().isoformat()` timestamp is the parameter `nowIso`). -/
def mkTrade (nowIso : String) (action : String) (market_data : MarketData) : Trade :=
  { timestamp := nowIso
    asset := market_data.asset
    name := market_data.name
    slug := market_data.slug
    action := action
    price := if action = "BUY" then market_data.up_price else market_data.down_price
    size := CONFIG.max_position_size
    up_price := market_data.up_price
    down_price := market_data.down_price
    volume := market_data.volume
    status := "open"
    pnl := 0 }

/-- Function `execute_trade(action, market_data, trades)`: append the new open
trade to the journal (the subsequent `save_trades` write is counted in
`run_trading_cycle`); returns the updated journal and the trade. -/
def execute_trade (nowIso : String) (action : String) (market_data : MarketData)
    (trades : Journal) : Journal × Trade :=
  let trade := mkTrade nowIso action market_data
  ({ trades with trades := trades.trades ++ [trade] }, trade)

/-- The close branch of `check_closed_positions` for one trade: set
status to closed, compute P&L from the hardcoded resolution placeholders
(`resolved_up = True`, `resolved_down = False`), and update the
consecutive-loss counter; returns the closed trade and the new counter. -/
def closeTrade (trade : Trade) (cl : Int) : Trade × Int :=
  if trade.action = "BUY" then
    let resolved_up := true
    if resolved_up then
      ({ trade with status := "closed", pnl := trade.size * (1 - trade.price) }, 0)
    else
      ({ trade with status := "closed", pnl := -trade.size * trade.price }, cl + 1)
  else
    let resolved_down := false
    if resolved_down then
      ({ trade with status := "closed", pnl := trade.size * (1 - trade.price) }, 0)
    else
      ({ trade with status := "closed", pnl := -trade.size * trade.price }, cl + 1)

/-- One iteration of the loop body of `check_closed_positions`: skip
non-open trades and trades whose slug has fewer than four `-`-separated
parts; `none` models the uncaught `ValueError` from
`int(slug_parts[-1])`; otherwise close the trade when the market end
time (embedded timestamp + 900) has passed.  The Bool records whether
the trade was closed in this step. -/
def settleStep (current_time : Int) (trade : Trade) (cl : Int) :
    Option (Trade × Int × Bool) :=
  if trade.status = "open" then
    if 4 ≤ (slugParts trade.slug).length then
      match (slugParts trade.slug).getLast?.bind pyInt with
      | none => none
      | some w =>
        if current_time > w + 900 then
          some ((closeTrade trade cl).1, (closeTrade trade cl).2, true)
        else
          some (trade, cl, false)
    else
      some (trade, cl, false)
  else
    some (trade, cl, false)

/-- The loop of `check_closed_positions` over the trade list, threading
the consecutive-loss counter and total P&L and counting closes. -/
def settleList (current_time : Int) :
    List Trade → Int → ℚ → Option (List Trade × Int × ℚ × Nat)
  | [], cl, total => some ([], cl, total, 0)
  | t :: ts, cl, total =>
    match settleStep current_time t cl with
    | none => none
    | some (t', cl', closed) =>
      match settleList current_time ts cl' (if closed then total + t'.pnl else total) with
      | none => none
      | some (rest, clF, totF, n) =>
        some (t' :: rest, clF, totF, if closed then n + 1 else n)

/-- Function `check_closed_positions(trades)`: returns the updated journal and
`closed_count`; `none` models the uncaught `ValueError` (the journal
file is then not written). -/
def check_closed_positions (current_time : Int) (trades : Journal) :
    Option (Journal × Nat) :=
  match settleList current_time trades.trades trades.consecutive_losses trades.total_pnl with
  | none => none
  | some (ts, cl, total, n) =>
    some ({ trades := ts, consecutive_losses := cl, total_pnl := total }, n)

/-- One HTTP attempt of `get_market_data`: either some exception was
raised while fetching or decoding the response body (`err`), or a JSON
object was obtained.  The two string-encoded array fields carry `none`
when the corresponding `json.loads`/`float` conversion would raise
(that exception is caught by the surrounding `except`). -/
structure ApiMarket where
  active : Bool
  closed : Bool
  question : String
  outcomes : Option (List String)
  outcomePrices : Option (List ℚ)
  volumeNum : ℚ
  liquidityNum : ℚ
  endDate : String
deriving Repr

/-- Result of one slug-lookup request. -/
inductive FetchResponse where
  | err
  | ok (d : ApiMarket)
deriving Repr

/-- Body of the `try` block of `get_market_data` for one offset: check
`active`/`closed`, parse the two array fields, and when at least two
prices are present build the snapshot; indexing `outcomes[0]` /
`outcomes[1]` with fewer than two labels raises `IndexError`, caught by
the `except` — every failure path falls through to the next offset,
i.e. yields `none` here. -/
def fetchAttempt (asset name slug : String) (timestamp : Int) :
    FetchResponse → Option MarketData
  | .err => none
  | .ok d =>
    if d.active && !d.closed then
      match d.outcomePrices, d.outcomes with
      | some outcome_prices, some outcomes =>
        if 2 ≤ outcome_prices.length then
          match outcome_prices, outcomes with
          | p0 :: p1 :: _, o0 :: o1 :: _ =>
            some { asset := asset
                   name := name
                   slug := slug
                   question := d.question
                   outcomes := o0 :: o1 :: outcomes.drop 2
                   prices := p0 :: p1 :: outcome_prices.drop 2
                   up_price := if strContains o0 "Up" then p0 else p1
                   down_price := if strContains o1 "Down" then p1 else p0
                   volume := d.volumeNum
                   liquidity := d.liquidityNum
                   end_date := d.endDate
                   timestamp := timestamp }
          | _, _ => none
        else none
      | _, _ => none
    else none

/-- One loop iteration of `get_market_data` at the given offset:
the window start is the current time rounded down to 900 seconds
(Python `//` is `Int.fdiv`), the slug is `{slug_prefix}-{timestamp}`,
and the response for that slug is processed by `fetchAttempt`. -/
def tryWindow (asset : String) (current_time : Int)
    (net : String → FetchResponse) (offset : Int) : Option MarketData :=
  fetchAttempt asset (marketConfig asset).1
    ((marketConfig asset).2 ++ "-" ++
      toString (Int.fdiv current_time 900 * 900 + offset))
    (Int.fdiv current_time 900 * 900 + offset)
    (net ((marketConfig asset).2 ++ "-" ++
      toString (Int.fdiv current_time 900 * 900 + offset)))

/-- Function `get_market_data(asset)`: try the current window, then the next
(`for offset in [0, 900]`); the network is modelled as a map from slug
to response.  A total function: every exception inside the loop is
caught, so the caller only ever sees a snapshot or `none`. -/
def get_market_data (asset : String) (current_time : Int)
    (net : String → FetchResponse) : Option MarketData :=
  match tryWindow asset current_time net 0 with
  | some m => some m
  | none => tryWindow asset current_time net 900

/-- The per-asset loop of `run_trading_cycle`, fed the fetch result for
each configured asset in order: evaluate `should_trade` against the
current journal and execute when signalled (`action` is `"BUY"` exactly
when the reason string contains `"BUY"`, i.e. for the buy signal).
Returns the final journal and the number of `execute_trade` calls, each
of which writes the journal file once. -/
def cycleLoop (nowIso : String) :
    List (Option MarketData) → Journal → Journal × Nat
  | [], trades => (trades, 0)
  | none :: ms, trades => cycleLoop nowIso ms trades
  | some market_data :: ms, trades =>
    let sig := should_trade market_data trades
    if sig.1 then
      let action := if sig.2 = Reason.buySignal then "BUY" else "SELL"
      let trades' := (execute_trade nowIso action market_data trades).1
      let rec' := cycleLoop nowIso ms trades'
      (rec'.1, rec'.2 + 1)
    else
      cycleLoop nowIso ms trades

/-- Function `run_trading_cycle()`: load the journal, settle, then fetch/decide/
execute per asset.  Returns the final journal, the number of journal
file reads and the number of journal file writes; `none` models the
settler's uncaught exception aborting the cycle.  `fetched` lists the
`get_market_data` results for the configured assets (btc, eth). -/
def run_trading_cycle (current_time : Int) (nowIso : String)
    (stored : Option Journal) (fetched : List (Option MarketData)) :
    Option (Journal × Nat × Nat) :=
  let trades := load_trades stored
  match check_closed_positions current_time trades with
  | none => none
  | some (trades1, closed_count) =>
    let settleWrites := if 0 < closed_count then 1 else 0
    let ex := cycleLoop nowIso fetched trades1
    some (ex.1, 1, settleWrites + ex.2)

/-- Spec-side predicate: `check_closed_positions` run at `current_time`
closes the trade `t` (it is open, its slug has at least four parts, its
trailing timestamp parses, and the market end time has passed). -/
def closesNow (current_time : Int) (t : Trade) : Bool :=
  decide (t.status = "open") &&
  decide (4 ≤ (slugParts t.slug).length) &&
  (match (slugParts t.slug).getLast?.bind pyInt with
   | some w => decide (current_time > w + 900)
   | none => false)

/-- Spec-side predicate: processing `t` at `current_time` neither raises
nor closes it, so the settler leaves it exactly as it is. -/
def settleInert (current_time : Int) (t : Trade) : Prop :=
  t.status = "open" → 4 ≤ (slugParts t.slug).length →
    ∃ w, (slugParts t.slug).getLast?.bind pyInt = some w ∧
      ¬ current_time > w + 900

/-- Spec-side step of the consecutive-loss counter for one close:
reset to zero on a win, increment by one on a loss. -/
def counterStep (cl : Int) (win : Bool) : Int :=
  if win then 0 else cl + 1

/-- Spec-side list of win flags of the trades a settler run at
`current_time` closes, in order (under the hardcoded resolution a close
is a win exactly for a BUY trade). -/
def closeOutcomes (current_time : Int) (ts : List Trade) : List Bool :=
  (ts.filter (fun t => closesNow current_time t)).map (fun t => t.action == "BUY")

/-- Spec-side sum of the P&L of the closed trades of a list. -/
def closedSum (ts : List Trade) : ℚ :=
  ((ts.filter (fun t => t.status == "closed")).map (fun t => t.pnl)).sum

/-- Spec-side frame relation between a trade before and after one
settler run at `current_time`: every field other than `status` and `pnl`
is unchanged, and the trade is either closed (exactly when its market
window has elapsed) or untouched. -/
def frameRel (current_time : Int) (t t' : Trade) : Prop :=
  t'.timestamp = t.timestamp ∧ t'.asset = t.asset ∧ t'.name = t.name ∧
  t'.slug = t.slug ∧ t'.action = t.action ∧ t'.price = t.price ∧
  t'.size = t.size ∧ t'.up_price = t.up_price ∧ t'.down_price = t.down_price ∧
  t'.volume = t.volume ∧
  (if closesNow current_time t then t'.status = "closed" else t' = t)

/-- Repeated settler runs, one per listed current time (one per cycle);
`none` if any run raises. -/
def settleTimes : List Int → Journal → Option Journal
  | [], trades => some trades
  | now :: rest, trades =>
    match check_closed_positions now trades with
    | none => none
    | some (trades', _) => settleTimes rest trades'

/-! ### Sample concrete inputs, used to instantiate the theorems -/

/-- A concrete market snapshot with the given up price. -/
def sampleMarket (p : ℚ) : MarketData :=
  { asset := "btc"
    name := "Bitcoin"
    slug := "btc-updown-15m-100"
    question := "Bitcoin Up or Down?"
    outcomes := ["Up", "Down"]
    prices := [p, 1 - p]
    up_price := p
    down_price := 1 - p
    volume := 0
    liquidity := 0
    end_date := ""
    timestamp := 100 }

/-- A concrete journal with the given consecutive-loss count. -/
def sampleJournal (cl : Int) : Journal :=
  { trades := [], consecutive_losses := cl, total_pnl := 0 }

/-- A concrete open trade with the given action, entry price and size. -/
def sampleOpenTrade (action : String) (price size : ℚ) : Trade :=
  { timestamp := "2026-02-20T18:45:00"
    asset := "btc"
    name := "Bitcoin"
    slug := "btc-updown-15m-100"
    action := action
    price := price
    size := size
    up_price := price
    down_price := 1 - price
    volume := 0
    status := "open"
    pnl := 0 }

/-! ### Helper lemmas -/

/-- Unfolding lemma: closing a BUY trade. -/
theorem closeTrade_buy (t : Trade) (cl : Int) (h : t.action = "BUY") :
    closeTrade t cl =
      ({ t with status := "closed", pnl := t.size * (1 - t.price) }, 0) := by
  simp [closeTrade, h]

/-- Unfolding lemma: closing a non-BUY trade. -/
theorem closeTrade_not_buy (t : Trade) (cl : Int) (h : ¬ t.action = "BUY") :
    closeTrade t cl =
      ({ t with status := "closed", pnl := -t.size * t.price }, cl + 1) := by
  simp [closeTrade, h]

/-- Spec-side property: the settler's loop body at `current_time` maps
the trade to itself (it neither raises, closes, nor alters it), whatever
the incoming counter is. -/
def settleSkips (current_time : Int) (t : Trade) : Prop :=
  ∀ cl, settleStep current_time t cl = some (t, cl, false)

/-- The counter component of `closeTrade`. -/
theorem closeTrade_counter (t : Trade) (cl : Int) :
    (closeTrade t cl).2 = if t.action == "BUY" then 0 else cl + 1 := by
  by_cases h : t.action = "BUY"
  · rw [closeTrade_buy t cl h]
    simp [h]
  · rw [closeTrade_not_buy t cl h]
    simp [h]

/-- The status of a freshly closed trade. -/
theorem closeTrade_status (t : Trade) (cl : Int) :
    (closeTrade t cl).1.status = "closed" := by
  by_cases h : t.action = "BUY"
  · rw [closeTrade_buy t cl h]
  · rw [closeTrade_not_buy t cl h]

/-- Equation: the settler's loop body skips a trade that is not open. -/
theorem settleStep_eq_not_open (current_time : Int) (t : Trade) (cl : Int)
    (h1 : ¬ t.status = "open") :
    settleStep current_time t cl = some (t, cl, false) := by
  unfold settleStep
  rw [if_neg h1]

/-- Equation: the settler's loop body skips an open trade whose slug has
fewer than four parts. -/
theorem settleStep_eq_short (current_time : Int) (t : Trade) (cl : Int)
    (h1 : t.status = "open") (h2 : ¬ 4 ≤ (slugParts t.slug).length) :
    settleStep current_time t cl = some (t, cl, false) := by
  unfold settleStep
  rw [if_pos h1, if_neg h2]

/-- Equation: the settler's loop body raises on an open trade with at
least four slug parts whose trailing part is not an integer. -/
theorem settleStep_eq_badint (current_time : Int) (t : Trade) (cl : Int)
    (h1 : t.status = "open") (h2 : 4 ≤ (slugParts t.slug).length)
    (hw : (slugParts t.slug).getLast?.bind pyInt = none) :
    settleStep current_time t cl = none := by
  unfold settleStep
  rw [if_pos h1, if_pos h2, hw]

/-- Equation: the settler's loop body skips an open trade whose market
window has not yet elapsed. -/
theorem settleStep_eq_stale (current_time : Int) (t : Trade) (cl : Int)
    (w : Int) (h1 : t.status = "open") (h2 : 4 ≤ (slugParts t.slug).length)
    (hw : (slugParts t.slug).getLast?.bind pyInt = some w)
    (h3 : ¬ current_time > w + 900) :
    settleStep current_time t cl = some (t, cl, false) := by
  unfold settleStep
  rw [if_pos h1, if_pos h2, hw]
  exact if_neg h3

/-- Equation: the settler's loop body closes an open trade whose market
window has elapsed. -/
theorem settleStep_eq_close (current_time : Int) (t : Trade) (cl : Int)
    (w : Int) (h1 : t.status = "open") (h2 : 4 ≤ (slugParts t.slug).length)
    (hw : (slugParts t.slug).getLast?.bind pyInt = some w)
    (h3 : current_time > w + 900) :
    settleStep current_time t cl =
      some ((closeTrade t cl).1, (closeTrade t cl).2, true) := by
  unfold settleStep
  rw [if_pos h1, if_pos h2, hw]
  exact if_pos h3

/-- Predicate `closesNow` holds exactly on the close branch. -/
theorem closesNow_of (current_time : Int) (t : Trade) (w : Int)
    (h1 : t.status = "open") (h2 : 4 ≤ (slugParts t.slug).length)
    (hw : (slugParts t.slug).getLast?.bind pyInt = some w)
    (h3 : current_time > w + 900) :
    closesNow current_time t = true := by
  unfold closesNow
  rw [hw]
  show (decide (t.status = "open") && decide (4 ≤ (slugParts t.slug).length) &&
    decide (current_time > w + 900)) = true
  rw [decide_eq_true h1, decide_eq_true h2, decide_eq_true h3]
  rfl

/-- Predicate `closesNow` fails on a trade that is not open. -/
theorem closesNow_false_not_open (current_time : Int) (t : Trade)
    (h1 : ¬ t.status = "open") : closesNow current_time t = false := by
  unfold closesNow
  rw [decide_eq_false h1, Bool.false_and, Bool.false_and]

/-- Predicate `closesNow` fails on a trade with a short slug. -/
theorem closesNow_false_short (current_time : Int) (t : Trade)
    (h2 : ¬ 4 ≤ (slugParts t.slug).length) :
    closesNow current_time t = false := by
  unfold closesNow
  rw [decide_eq_false h2, Bool.and_false, Bool.false_and]

/-- Predicate `closesNow` fails on a trade whose window has not elapsed. -/
theorem closesNow_false_stale (current_time : Int) (t : Trade) (w : Int)
    (hw : (slugParts t.slug).getLast?.bind pyInt = some w)
    (h3 : ¬ current_time > w + 900) :
    closesNow current_time t = false := by
  unfold closesNow
  rw [hw]
  show (decide (t.status = "open") && decide (4 ≤ (slugParts t.slug).length) &&
    decide (current_time > w + 900)) = false
  rw [decide_eq_false h3, Bool.and_false]

/-- A trade that is not open is skipped by the settler's loop body. -/
theorem settleStep_not_open (current_time : Int) (t : Trade)
    (h : ¬ t.status = "open") : settleSkips current_time t :=
  fun cl => settleStep_eq_not_open current_time t cl h

/-- Complete case analysis of one settler loop-body run. -/
theorem settleStep_spec (current_time : Int) (t : Trade) (cl : Int)
    (t' : Trade) (cl' : Int) (b : Bool)
    (h : settleStep current_time t cl = some (t', cl', b)) :
    (b = true ∧ closesNow current_time t = true ∧
      t' = (closeTrade t cl).1 ∧ cl' = (closeTrade t cl).2) ∨
    (b = false ∧ closesNow current_time t = false ∧ t' = t ∧ cl' = cl) := by
  by_cases h1 : t.status = "open"
  · by_cases h2 : 4 ≤ (slugParts t.slug).length
    · cases hw : (slugParts t.slug).getLast?.bind pyInt with
      | none =>
        rw [settleStep_eq_badint current_time t cl h1 h2 hw] at h
        exact absurd h (by simp)
      | some w =>
        by_cases h3 : current_time > w + 900
        · rw [settleStep_eq_close current_time t cl w h1 h2 hw h3] at h
          simp only [Option.some.injEq, Prod.mk.injEq] at h
          exact Or.inl ⟨h.2.2.symm, closesNow_of current_time t w h1 h2 hw h3,
            h.1.symm, h.2.1.symm⟩
        · rw [settleStep_eq_stale current_time t cl w h1 h2 hw h3] at h
          simp only [Option.some.injEq, Prod.mk.injEq] at h
          exact Or.inr ⟨h.2.2.symm, closesNow_false_stale current_time t w hw h3,
            h.1.symm, h.2.1.symm⟩
    · rw [settleStep_eq_short current_time t cl h1 h2] at h
      simp only [Option.some.injEq, Prod.mk.injEq] at h
      exact Or.inr ⟨h.2.2.symm, closesNow_false_short current_time t h2,
        h.1.symm, h.2.1.symm⟩
  · rw [settleStep_eq_not_open current_time t cl h1] at h
    simp only [Option.some.injEq, Prod.mk.injEq] at h
    exact Or.inr ⟨h.2.2.symm, closesNow_false_not_open current_time t h1,
      h.1.symm, h.2.1.symm⟩

/-- A loop-body run that does not close the trade leaves it untouched
whatever the incoming counter. -/
theorem settleStep_skips_of_some_false (current_time : Int) (t : Trade)
    (cl cl' : Int) (t' : Trade)
    (h : settleStep current_time t cl = some (t', cl', false)) :
    settleSkips current_time t := by
  intro cl2
  by_cases h1 : t.status = "open"
  · by_cases h2 : 4 ≤ (slugParts t.slug).length
    · cases hw : (slugParts t.slug).getLast?.bind pyInt with
      | none =>
        rw [settleStep_eq_badint current_time t cl h1 h2 hw] at h
        exact absurd h (by simp)
      | some w =>
        by_cases h3 : current_time > w + 900
        · rw [settleStep_eq_close current_time t cl w h1 h2 hw h3] at h
          simp at h
        · exact settleStep_eq_stale current_time t cl2 w h1 h2 hw h3
    · exact settleStep_eq_short current_time t cl2 h1 h2
  · exact settleStep_eq_not_open current_time t cl2 h1

/-- A freshly closed trade is skipped by any later settler run. -/
theorem settleSkips_closeTrade (now2 : Int) (t : Trade) (cl : Int) :
    settleSkips now2 (closeTrade t cl).1 := by
  apply settleStep_not_open
  rw [closeTrade_status]
  decide

/-- A trade the settler closes is currently open. -/
theorem closesNow_status (current_time : Int) (t : Trade)
    (h : closesNow current_time t = true) : t.status = "open" := by
  simp only [closesNow, Bool.and_eq_true, decide_eq_true_eq] at h
  exact h.1.1

/-- A trade whose slug has fewer than four parts is never closed. -/
theorem closesNow_short_slug (current_time : Int) (t : Trade)
    (h : (slugParts t.slug).length < 4) :
    closesNow current_time t = false :=
  closesNow_false_short current_time t (by omega)

/-- The frame relation holds between a trade and its closed form. -/
theorem frameRel_close (current_time : Int) (t : Trade) (cl : Int)
    (h : closesNow current_time t = true) :
    frameRel current_time t (closeTrade t cl).1 := by
  by_cases ha : t.action = "BUY"
  · rw [closeTrade_buy t cl ha]
    simp [frameRel, h]
  · rw [closeTrade_not_buy t cl ha]
    simp [frameRel, h]

/-- The frame relation is reflexive at a trade the settler skips. -/
theorem frameRel_skip (current_time : Int) (t : Trade)
    (h : closesNow current_time t = false) :
    frameRel current_time t t := by
  simp [frameRel, h]

/-- Sum `closedSum` over a cons. -/
theorem closedSum_cons (t : Trade) (ts : List Trade) :
    closedSum (t :: ts) =
      (if t.status = "closed" then t.pnl else 0) + closedSum ts := by
  by_cases h : t.status = "closed"
  · simp [closedSum, List.filter_cons, h]
  · simp [closedSum, List.filter_cons, h]

/-- List `closeOutcomes` over a cons the settler closes. -/
theorem closeOutcomes_cons_pos (current_time : Int) (t : Trade)
    (ts : List Trade) (h : closesNow current_time t = true) :
    closeOutcomes current_time (t :: ts) =
      (t.action == "BUY") :: closeOutcomes current_time ts := by
  simp [closeOutcomes, List.filter_cons, h]

/-- List `closeOutcomes` over a cons the settler skips. -/
theorem closeOutcomes_cons_neg (current_time : Int) (t : Trade)
    (ts : List Trade) (h : closesNow current_time t = false) :
    closeOutcomes current_time (t :: ts) = closeOutcomes current_time ts := by
  simp [closeOutcomes, List.filter_cons, h]

/-- Master specification of the settler loop: a successful run relates
input and output trades by the frame relation, folds the counter with
`counterStep` over the win flags of the closed trades, shifts the total
P&L by exactly the newly closed trades' P&L, counts the closed trades,
and produces only trades that any rerun at the same time skips. -/
theorem settleList_spec (current_time : Int) (ts : List Trade) :
    ∀ cl total ts' cl' total' n,
    settleList current_time ts cl total = some (ts', cl', total', n) →
    List.Forall₂ (frameRel current_time) ts ts' ∧
    cl' = (closeOutcomes current_time ts).foldl counterStep cl ∧
    total' = total + (closedSum ts' - closedSum ts) ∧
    n = (ts.filter (fun t => closesNow current_time t)).length ∧
    ∀ u ∈ ts', settleSkips current_time u := by
  induction ts with
  | nil =>
    intro cl total ts' cl' total' n h
    simp only [settleList, Option.some.injEq, Prod.mk.injEq] at h
    obtain ⟨rfl, rfl, rfl, rfl⟩ := h
    exact ⟨List.Forall₂.nil, by simp [closeOutcomes], by simp [closedSum],
      by simp, by simp⟩
  | cons t ts ih =>
    intro cl total ts' cl' total' n h
    simp only [settleList] at h
    cases hstep : settleStep current_time t cl with
    | none =>
      rw [hstep] at h
      simp at h
    | some r =>
      obtain ⟨t1, cl1, b⟩ := r
      rw [hstep] at h
      simp only at h
      cases hrec : settleList current_time ts cl1
          (if b then total + t1.pnl else total) with
      | none =>
        rw [hrec] at h
        simp at h
      | some r2 =>
        obtain ⟨rest, clF, totF, n2⟩ := r2
        rw [hrec] at h
        simp only [Option.some.injEq, Prod.mk.injEq] at h
        obtain ⟨hts', hclF', htotF', hn'⟩ := h
        obtain ⟨hfr, hclF, htotF, hn2, hskips⟩ :=
          ih cl1 (if b then total + t1.pnl else total) rest clF totF n2 hrec
        rcases settleStep_spec current_time t cl t1 cl1 b hstep with
          ⟨hb, hcn, ht1, hcl1⟩ | ⟨hb, hcn, ht1, hcl1⟩
        · rw [if_pos hb] at hn' htotF
          subst hts' hclF' htotF' hn' ht1 hcl1
          have hopen : t.status = "open" := closesNow_status current_time t hcn
          refine ⟨?_, ?_, ?_, ?_, ?_⟩
          · exact List.Forall₂.cons (frameRel_close current_time t cl hcn) hfr
          · rw [hclF, closeOutcomes_cons_pos current_time t ts hcn,
              List.foldl_cons, closeTrade_counter, counterStep]
          · rw [htotF, closedSum_cons, closedSum_cons, closeTrade_status,
              hopen, if_pos rfl, if_neg (by decide)]
            ring
          · rw [hn2, List.filter_cons, hcn]
            simp
          · intro u hu
            rcases List.mem_cons.mp hu with h | h
            · rw [h]
              exact settleSkips_closeTrade current_time t cl
            · exact hskips u h
        · have hbne : ¬ b = true := by rw [hb]; decide
          rw [if_neg hbne] at hn' htotF
          rw [hb] at hstep
          rw [ht1] at hstep hts'
          rw [hcl1] at hstep hrec hclF
          subst hts' hclF' htotF' hn'
          refine ⟨?_, ?_, ?_, ?_, ?_⟩
          · exact List.Forall₂.cons (frameRel_skip current_time t hcn) hfr
          · rw [hclF, closeOutcomes_cons_neg current_time t ts hcn]
          · rw [htotF, closedSum_cons, closedSum_cons]
            ring
          · rw [hn2, List.filter_cons, hcn]
            simp
          · intro u hu
            rcases List.mem_cons.mp hu with h | h
            · rw [h]
              exact settleStep_skips_of_some_false current_time t cl cl t hstep
            · exact hskips u h

/-- A settler run over trades it entirely skips returns everything
unchanged and closes nothing. -/
theorem settleList_of_skips (current_time : Int) (ts : List Trade)
    (h : ∀ t ∈ ts, settleSkips current_time t) :
    ∀ cl total, settleList current_time ts cl total = some (ts, cl, total, 0) := by
  induction ts with
  | nil => intro cl total; rfl
  | cons t ts ih =>
    intro cl total
    have ht : settleSkips current_time t := h t (List.mem_cons_self t ts)
    have hrest := ih (fun u hu => h u (List.mem_cons_of_mem t hu))
    simp [settleList, ht cl, hrest cl total]



/-! ### Claim theorems -/

/-- C1: for every market snapshot with up-price `p` and every journal
with consecutive-loss count below 3, `should_trade` decides BUY when
`p < 0.40`, SELL when `p > 0.60`, and HOLD (no trade) when
`0.40 ≤ p ≤ 0.60`. -/
theorem should_trade_thresholds (m : MarketData) (j : Journal)
    (hcl : j.consecutive_losses < 3) :
    (m.up_price < 0.40 → should_trade m j = (true, Reason.buySignal)) ∧
    (m.up_price > 0.60 → should_trade m j = (true, Reason.sellSignal)) ∧
    (0.40 ≤ m.up_price → m.up_price ≤ 0.60 →
      should_trade m j = (false, Reason.hold)) := by
  refine ⟨fun h1 => ?_, fun h2 => ?_, fun h3 h4 => ?_⟩ <;>
  · simp only [should_trade, CONFIG]
    split_ifs <;> first | rfl | omega | linarith

/-- Witness for C1 at up-price 0.25 and a fresh journal. -/
theorem should_trade_thresholds_witness :
    (sampleJournal 0).consecutive_losses < 3 ∧
    (sampleMarket 0.25).up_price < 0.40 ∧
    should_trade (sampleMarket 0.25) (sampleJournal 0) = (true, Reason.buySignal) :=
  ⟨by norm_num [sampleJournal], by norm_num [sampleMarket],
    (should_trade_thresholds (sampleMarket 0.25) (sampleJournal 0)
      (by norm_num [sampleJournal])).1 (by norm_num [sampleMarket])⟩

/-- C2: for every journal with consecutive-loss count at least 3 and
every market snapshot, `should_trade` returns no-trade with the
circuit-breaker reason, regardless of the price. -/
theorem circuit_breaker_halts (m : MarketData) (j : Journal)
    (hcl : 3 ≤ j.consecutive_losses) :
    should_trade m j = (false, Reason.circuit_breaker) := by
  simp only [should_trade, CONFIG]
  split_ifs with h
  · rfl
  · exact absurd hcl h

/-- Witness for C2 at three consecutive losses and up-price 0.25. -/
theorem circuit_breaker_halts_witness :
    3 ≤ (sampleJournal 3).consecutive_losses ∧
    should_trade (sampleMarket 0.25) (sampleJournal 3) =
      (false, Reason.circuit_breaker) :=
  ⟨by norm_num [sampleJournal],
    circuit_breaker_halts (sampleMarket 0.25) (sampleJournal 3)
      (by norm_num [sampleJournal])⟩

/-- C3: every close is settled either as a win with P&L
`size × (1 − entry price)` (the counter resets to 0) or as a loss with
P&L `−size × entry price` (the counter increments); with size 10 and
entry price 0.35 a win yields 6.50 and a loss yields −3.50, as shown on
the sample BUY (settled as win) and SELL (settled as loss) trades. -/
theorem closeTrade_pnl (t : Trade) (cl : Int) :
    (((closeTrade t cl).2 = 0 ∧
        (closeTrade t cl).1.pnl = t.size * (1 - t.price)) ∨
      ((closeTrade t cl).2 = cl + 1 ∧
        (closeTrade t cl).1.pnl = -(t.size * t.price))) ∧
    (closeTrade (sampleOpenTrade "BUY" 0.35 10) 0).1.pnl = 6.50 ∧
    (closeTrade (sampleOpenTrade "SELL" 0.35 10) 0).1.pnl = -3.50 := by
  refine ⟨?_, ?_, ?_⟩
  · by_cases h : t.action = "BUY"
    · exact Or.inl (by rw [closeTrade_buy t cl h]; exact ⟨rfl, rfl⟩)
    · refine Or.inr ?_
      rw [closeTrade_not_buy t cl h]
      exact ⟨rfl, by ring⟩
  · rw [closeTrade_buy _ _ rfl]
    norm_num [sampleOpenTrade]
  · rw [closeTrade_not_buy _ _ (by decide)]
    norm_num [sampleOpenTrade]

/-- C4: the Settler's close step consults no market data: it is a
function of the trade and the counter alone, built from the hardcoded
placeholders `resolved_up = True` / `resolved_down = False`, so a BUY
trade is always settled as a win (P&L `size × (1 − entry)`, counter
reset to 0) and a SELL trade always as a loss (P&L `−size × entry`,
counter incremented), regardless of actual settlement. -/
theorem settler_hardcoded_resolution (t : Trade) (cl : Int) :
    (t.action = "BUY" → closeTrade t cl =
      ({ t with status := "closed", pnl := t.size * (1 - t.price) }, 0)) ∧
    (t.action = "SELL" → closeTrade t cl =
      ({ t with status := "closed", pnl := -t.size * t.price }, cl + 1)) := by
  constructor
  · intro h
    simp [closeTrade, h]
  · intro h
    simp [closeTrade, h]

/-- Witness for C4 on concrete BUY and SELL trades. -/
theorem settler_hardcoded_resolution_witness :
    (sampleOpenTrade "BUY" 0.35 10).action = "BUY" ∧
    (sampleOpenTrade "SELL" 0.35 10).action = "SELL" ∧
    closeTrade (sampleOpenTrade "BUY" 0.35 10) 0 =
      ({ sampleOpenTrade "BUY" 0.35 10 with
          status := "closed", pnl := (10:ℚ) * (1 - 0.35) }, 0) ∧
    closeTrade (sampleOpenTrade "SELL" 0.35 10) 0 =
      ({ sampleOpenTrade "SELL" 0.35 10 with
          status := "closed", pnl := -(10:ℚ) * 0.35 }, 0 + 1) := by
  refine ⟨rfl, rfl, ?_, ?_⟩
  · have h := (settler_hardcoded_resolution (sampleOpenTrade "BUY" 0.35 10) 0).1 rfl
    rw [h]
    norm_num [sampleOpenTrade]
  · have h := (settler_hardcoded_resolution (sampleOpenTrade "SELL" 0.35 10) 0).2 rfl
    rw [h]
    norm_num [sampleOpenTrade]

/-- Destructuring a successful `check_closed_positions` run into its
`settleList` core. -/
theorem check_spec (current_time : Int) (j j' : Journal) (n : Nat)
    (h : check_closed_positions current_time j = some (j', n)) :
    settleList current_time j.trades j.consecutive_losses j.total_pnl =
      some (j'.trades, j'.consecutive_losses, j'.total_pnl, n) := by
  unfold check_closed_positions at h
  cases hs : settleList current_time j.trades j.consecutive_losses j.total_pnl with
  | none => rw [hs] at h; simp at h
  | some r =>
    obtain ⟨ts, cl, total, n2⟩ := r
    rw [hs] at h
    simp only [Option.some.injEq, Prod.mk.injEq] at h
    obtain ⟨hj, hn⟩ := h
    subst hn
    rw [← hj]

/-- Sum `closedSum` over an append. -/
theorem closedSum_append (ts us : List Trade) :
    closedSum (ts ++ us) = closedSum ts + closedSum us := by
  simp [closedSum, List.filter_append]

/-- A skipped trade is literally unchanged by the frame relation. -/
theorem frameRel_eq_of_not_closes (current_time : Int) (t t' : Trade)
    (hc : closesNow current_time t = false)
    (h : frameRel current_time t t') : t' = t := by
  obtain ⟨-, -, -, -, -, -, -, -, -, -, hif⟩ := h
  rw [hc] at hif
  simpa using hif

/-- Sample open BUY trade used in the journal-level witnesses. -/
def tradeB : Trade := sampleOpenTrade "BUY" 0.25 10

/-- Sample journal holding one open BUY trade. -/
def journalB : Journal :=
  { trades := [tradeB], consecutive_losses := 0, total_pnl := 0 }

/-- The closed form of `tradeB`. -/
def tradeBclosed : Trade :=
  { tradeB with status := "closed", pnl := tradeB.size * (1 - tradeB.price) }

/-- The journal produced by settling `journalB` after the window. -/
def journalB1 : Journal :=
  { trades := [tradeBclosed], consecutive_losses := 0,
    total_pnl := 0 + tradeBclosed.pnl }

/-- C5: executing a trade leaves the consecutive-loss counter unchanged
and preserves the invariant that the total P&L is the sum of the closed
trades' P&L; settling evolves the counter exactly by `counterStep`
(reset to 0 on each winning close, increment by 1 on each losing close,
nothing else) over the closed trades, and preserves the same total-P&L
invariant. -/
theorem journal_invariants :
    (∀ (nowIso action : String) (market_data : MarketData) (j : Journal),
      (execute_trade nowIso action market_data j).1.consecutive_losses =
        j.consecutive_losses ∧
      (j.total_pnl = closedSum j.trades →
        (execute_trade nowIso action market_data j).1.total_pnl =
          closedSum (execute_trade nowIso action market_data j).1.trades)) ∧
    (∀ (current_time : Int) (j j' : Journal) (n : Nat),
      check_closed_positions current_time j = some (j', n) →
      j'.consecutive_losses =
        (closeOutcomes current_time j.trades).foldl counterStep
          j.consecutive_losses ∧
      (j.total_pnl = closedSum j.trades →
        j'.total_pnl = closedSum j'.trades)) := by
  constructor
  · intro nowIso action market_data j
    refine ⟨rfl, fun hinv => ?_⟩
    show j.total_pnl = closedSum (j.trades ++ [mkTrade nowIso action market_data])
    rw [closedSum_append, hinv, closedSum_cons]
    have hopen : ¬ (mkTrade nowIso action market_data).status = "closed" := by
      show ¬ "open" = "closed"
      decide
    rw [if_neg hopen]
    simp [closedSum]
  · intro current_time j j' n h
    obtain ⟨-, hcl, htot, -, -⟩ :=
      settleList_spec current_time j.trades j.consecutive_losses j.total_pnl
        j'.trades j'.consecutive_losses j'.total_pnl n
        (check_spec current_time j j' n h)
    refine ⟨hcl, fun hinv => ?_⟩
    rw [htot, hinv]
    ring

/-- Witness for C5 on a concrete one-trade journal settled at time
2000. -/
theorem journal_invariants_witness :
    journalB.total_pnl = closedSum journalB.trades ∧
    check_closed_positions 2000 journalB = some (journalB1, 1) ∧
    journalB1.consecutive_losses =
      (closeOutcomes 2000 journalB.trades).foldl counterStep
        journalB.consecutive_losses ∧
    journalB1.total_pnl = closedSum journalB1.trades ∧
    (execute_trade "t" "BUY" (sampleMarket 0.25) journalB).1.consecutive_losses =
      journalB.consecutive_losses := by
  have hrun : check_closed_positions 2000 journalB = some (journalB1, 1) := rfl
  have hinv : journalB.total_pnl = closedSum journalB.trades := by
    show (0:ℚ) = closedSum [tradeB]
    rw [closedSum_cons]
    have : ¬ tradeB.status = "closed" := by decide
    rw [if_neg this]
    simp [closedSum]
  obtain ⟨hc, hp⟩ := journal_invariants.2 2000 journalB journalB1 1 hrun
  exact ⟨hinv, hrun, hc, hp hinv,
    (journal_invariants.1 "t" "BUY" (sampleMarket 0.25) journalB).1⟩

/-- Pointwise-framed lists with nothing eligible to close are equal. -/
theorem forall2_frame_eq (current_time : Int) :
    ∀ (l1 l2 : List Trade), List.Forall₂ (frameRel current_time) l1 l2 →
      (∀ t ∈ l1, closesNow current_time t = false) → l2 = l1 := by
  intro l1 l2 hfr
  induction hfr with
  | nil => intro _; rfl
  | @cons a b m1 m2 ha hl ih =>
    intro hq
    have hb : b = a := frameRel_eq_of_not_closes current_time a b
      (hq a (List.mem_cons_self a m1)) ha
    rw [hb, ih (fun t ht => hq t (List.mem_cons_of_mem a ht))]

/-- C6: a second settler run immediately after a successful one (same
current time) returns the journal unchanged and closes nothing; more
generally a settler run at any time at which no trade of the journal is
eligible to close (every matured trade is already closed) leaves the
journal identical and closes nothing. -/
theorem settler_idempotent :
    (∀ (current_time : Int) (j j' : Journal) (n : Nat),
      check_closed_positions current_time j = some (j', n) →
      check_closed_positions current_time j' = some (j', 0)) ∧
    (∀ (current_time : Int) (j j' : Journal) (n : Nat),
      check_closed_positions current_time j = some (j', n) →
      (∀ t ∈ j.trades, closesNow current_time t = false) →
      j' = j ∧ n = 0) := by
  constructor
  · intro current_time j j' n h
    obtain ⟨-, -, -, -, hskips⟩ :=
      settleList_spec current_time j.trades j.consecutive_losses j.total_pnl
        j'.trades j'.consecutive_losses j'.total_pnl n
        (check_spec current_time j j' n h)
    unfold check_closed_positions
    rw [settleList_of_skips current_time j'.trades hskips
      j'.consecutive_losses j'.total_pnl]
  · intro current_time j j' n h hquiet
    obtain ⟨hfr, hcl, htot, hn, -⟩ :=
      settleList_spec current_time j.trades j.consecutive_losses j.total_pnl
        j'.trades j'.consecutive_losses j'.total_pnl n
        (check_spec current_time j j' n h)
    have hts : j'.trades = j.trades :=
      forall2_frame_eq current_time j.trades j'.trades hfr hquiet
    have hout : closeOutcomes current_time j.trades = [] := by
      unfold closeOutcomes
      rw [List.filter_eq_nil_iff.mpr (by intro t ht; rw [hquiet t ht]; decide)]
      rfl
    have hcl' : j'.consecutive_losses = j.consecutive_losses := by
      rw [hcl, hout]
      rfl
    have htot' : j'.total_pnl = j.total_pnl := by
      rw [htot, hts]
      ring
    have hn' : n = 0 := by
      rw [hn, List.filter_eq_nil_iff.mpr (by intro t ht; rw [hquiet t ht]; decide)]
      rfl
    refine ⟨?_, hn'⟩
    cases j' with
    | mk a b c =>
      cases j with
      | mk d e f =>
        simp only at hts hcl' htot'
        rw [hts, hcl', htot']

/-- Witness for C6 on a concrete one-trade journal settled twice at
time 2000. -/
theorem settler_idempotent_witness :
    check_closed_positions 2000 journalB = some (journalB1, 1) ∧
    check_closed_positions 2000 journalB1 = some (journalB1, 0) ∧
    (∀ t ∈ journalB1.trades, closesNow 5000 t = false) ∧
    (∀ j' n, check_closed_positions 5000 journalB1 = some (j', n) →
      j' = journalB1 ∧ n = 0) := by
  have hrun : check_closed_positions 2000 journalB = some (journalB1, 1) := rfl
  have hquiet : ∀ t ∈ journalB1.trades, closesNow 5000 t = false := by
    intro t ht
    rw [List.mem_singleton.mp ht]
    exact closesNow_false_not_open 5000 tradeBclosed (by decide)
  refine ⟨hrun, settler_idempotent.1 2000 journalB journalB1 1 hrun, hquiet,
    fun j' n h => settler_idempotent.2 5000 journalB1 j' n h hquiet⟩

/-- C8: the Executor only appends a fresh trade (status open, zero P&L)
and leaves every existing trade record untouched; the Settler deletes no
trade and relates every trade to its successor by the frame relation:
all fields other than status and P&L are unchanged, and the status moves
from open to closed exactly when the trade's market window has elapsed
(otherwise the trade is completely untouched). -/
theorem trade_frame :
    (∀ (nowIso action : String) (market_data : MarketData) (j : Journal),
      (execute_trade nowIso action market_data j).1.trades =
        j.trades ++ [mkTrade nowIso action market_data] ∧
      (mkTrade nowIso action market_data).status = "open" ∧
      (mkTrade nowIso action market_data).pnl = 0) ∧
    (∀ (current_time : Int) (j j' : Journal) (n : Nat),
      check_closed_positions current_time j = some (j', n) →
      j'.trades.length = j.trades.length ∧
      List.Forall₂ (frameRel current_time) j.trades j'.trades) := by
  constructor
  · intro nowIso action market_data j
    exact ⟨rfl, rfl, rfl⟩
  · intro current_time j j' n h
    obtain ⟨hfr, -, -, -, -⟩ :=
      settleList_spec current_time j.trades j.consecutive_losses j.total_pnl
        j'.trades j'.consecutive_losses j'.total_pnl n
        (check_spec current_time j j' n h)
    exact ⟨hfr.length_eq.symm, hfr⟩

/-- Witness for C8 on a concrete one-trade journal settled at time
2000. -/
theorem trade_frame_witness :
    check_closed_positions 2000 journalB = some (journalB1, 1) ∧
    journalB1.trades.length = journalB.trades.length ∧
    List.Forall₂ (frameRel 2000) journalB.trades journalB1.trades ∧
    (execute_trade "t" "BUY" (sampleMarket 0.25) journalB).1.trades =
      journalB.trades ++ [mkTrade "t" "BUY" (sampleMarket 0.25)] := by
  have hrun : check_closed_positions 2000 journalB = some (journalB1, 1) := rfl
  obtain ⟨hlen, hfr⟩ := trade_frame.2 2000 journalB journalB1 1 hrun
  exact ⟨hrun, hlen, hfr,
    (trade_frame.1 "t" "BUY" (sampleMarket 0.25) journalB).1⟩

/-- C10: an open trade whose slug splits on `-` into fewer than four
parts is left completely unchanged by any number of settler runs at any
sequence of current times: it stays at the same index, open, with its
P&L and all other fields intact. -/
theorem short_slug_never_closed :
    ∀ (times : List Int) (j j' : Journal),
      settleTimes times j = some j' →
      ∀ (i : Nat) (h : i < j.trades.length) (h' : i < j'.trades.length),
        (j.trades.get ⟨i, h⟩).status = "open" →
        (slugParts (j.trades.get ⟨i, h⟩).slug).length < 4 →
        j'.trades.get ⟨i, h'⟩ = j.trades.get ⟨i, h⟩ ∧
        ∀ ct : Int, closesNow ct (j.trades.get ⟨i, h⟩) = false := by
  intro times
  induction times with
  | nil =>
    intro j j' h i hi hi' _ hshort
    simp only [settleTimes, Option.some.injEq] at h
    subst h
    exact ⟨rfl, fun ct => closesNow_short_slug ct _ hshort⟩
  | cons now rest ih =>
    intro j j' h i hi hi' hopen hshort
    simp only [settleTimes] at h
    cases hc : check_closed_positions now j with
    | none => rw [hc] at h; simp at h
    | some p =>
      obtain ⟨j1, n⟩ := p
      rw [hc] at h
      simp only at h
      obtain ⟨hfr, -, -, -, -⟩ :=
        settleList_spec now j.trades j.consecutive_losses j.total_pnl
          j1.trades j1.consecutive_losses j1.total_pnl n
          (check_spec now j j1 n hc)
      obtain ⟨hlen, hget⟩ := List.forall₂_iff_get.mp hfr
      have hi1 : i < j1.trades.length := hlen ▸ hi
      have hstep : j1.trades.get ⟨i, hi1⟩ = j.trades.get ⟨i, hi⟩ :=
        frameRel_eq_of_not_closes now (j.trades.get ⟨i, hi⟩)
          (j1.trades.get ⟨i, hi1⟩)
          (closesNow_short_slug now (j.trades.get ⟨i, hi⟩) hshort)
          (hget i hi hi1)
      obtain ⟨h1, -⟩ := ih j1 j' h i hi1 hi'
        (by rw [hstep]; exact hopen) (by rw [hstep]; exact hshort)
      rw [h1, hstep]
      exact ⟨rfl, fun ct => closesNow_short_slug ct _ hshort⟩

/-- Sample open trade whose slug has a single `-`-free part. -/
def tradeShort : Trade := { sampleOpenTrade "BUY" 0.25 10 with slug := "badslug" }

/-- Sample journal holding only the short-slug trade. -/
def journalShort : Journal :=
  { trades := [tradeShort], consecutive_losses := 0, total_pnl := 0 }

/-- Index bound for the short-slug witness. -/
theorem journalShort_len : 0 < journalShort.trades.length := by decide

/-- Witness for C10: two settler runs at times 2000 and 5000 leave the
short-slug trade unchanged. -/
theorem short_slug_never_closed_witness :
    settleTimes [2000, 5000] journalShort = some journalShort ∧
    (journalShort.trades.get ⟨0, journalShort_len⟩).status = "open" ∧
    (slugParts (journalShort.trades.get ⟨0, journalShort_len⟩).slug).length < 4 ∧
    (journalShort.trades.get ⟨0, journalShort_len⟩ =
        journalShort.trades.get ⟨0, journalShort_len⟩ ∧
      ∀ ct : Int, closesNow ct (journalShort.trades.get ⟨0, journalShort_len⟩) =
        false) := by
  have hrun : settleTimes [2000, 5000] journalShort = some journalShort := rfl
  exact ⟨hrun, by decide, by decide,
    short_slug_never_closed [2000, 5000] journalShort journalShort hrun 0
      journalShort_len journalShort_len (by decide) (by decide)⟩

/-- Spec-side predicate: the response for one slug lookup that cannot
produce a market snapshot — a raised network/decode error, an inactive
or closed market, an unparseable array field, or fewer than two outcome
prices or outcome labels. -/
def badResponse (r : FetchResponse) : Prop :=
  match r with
  | .err => True
  | .ok d =>
    d.active = false ∨ d.closed = true ∨
    d.outcomePrices = none ∨ d.outcomes = none ∨
    (∃ ps, d.outcomePrices = some ps ∧ ps.length < 2) ∨
    (∃ os, d.outcomes = some os ∧ os.length < 2)

/-- A bad response never yields a snapshot. -/
theorem fetchAttempt_bad (asset name slug : String) (ts : Int)
    (r : FetchResponse) (h : badResponse r) :
    fetchAttempt asset name slug ts r = none := by
  cases r with
  | err => rfl
  | ok d =>
    by_cases hact : d.active && !d.closed
    case neg =>
      simp only [fetchAttempt]
      rw [if_neg hact]
    case pos =>
      simp only [fetchAttempt]
      rw [if_pos hact]
      rcases h with h | h | h | h | ⟨ps, hps, hlen⟩ | ⟨os, hos, hlen⟩
      · rw [h] at hact
        simp at hact
      · rw [h] at hact
        simp at hact
      · rw [h]
      · rw [h]
        cases d.outcomePrices <;> rfl
      · rw [hps]
        cases ho : d.outcomes with
        | none => rfl
        | some os2 => exact if_neg (by omega)
      · rw [hos]
        cases hp : d.outcomePrices with
        | none => rfl
        | some ps2 =>
          by_cases hps2 : 2 ≤ ps2.length
          · rcases ps2 with _ | ⟨p0, _ | ⟨p1, ps'⟩⟩
            · exact absurd hps2 (by decide)
            · exact absurd hps2 (by norm_num)
            · rcases os with _ | ⟨o0, _ | ⟨o1, os'⟩⟩
              · exact (if_pos hps2).trans rfl
              · exact (if_pos hps2).trans rfl
              · exact absurd hlen (by simp only [List.length_cons]; omega)
          · exact if_neg hps2

/-- When every response is bad, one window attempt yields nothing. -/
theorem tryWindow_bad (asset : String) (current_time : Int)
    (net : String → FetchResponse) (offset : Int)
    (h : ∀ slug, badResponse (net slug)) :
    tryWindow asset current_time net offset = none :=
  fetchAttempt_bad _ _ _ _ _ (h _)

/-- C7: for every asset key and every family of API responses in which
each slug lookup is missing, inactive, closed, or malformed (raised
error, unparseable array fields, or fewer than two outcome prices or
labels), `get_market_data` returns `none`.  The function is total —
every exception path is caught inside it and surfaces only as `none` to
the caller. -/
theorem fetcher_bad_responses_null (asset : String) (current_time : Int)
    (net : String → FetchResponse)
    (h : ∀ slug, badResponse (net slug)) :
    get_market_data asset current_time net = none := by
  unfold get_market_data
  rw [tryWindow_bad asset current_time net 0 h,
    tryWindow_bad asset current_time net 900 h]

/-- Witness for C7: a network that always raises. -/
theorem fetcher_bad_responses_null_witness :
    (∀ slug : String, badResponse ((fun _ => FetchResponse.err) slug)) ∧
    get_market_data "btc" 1000 (fun _ => FetchResponse.err) = none := by
  have hb : ∀ slug : String, badResponse ((fun _ => FetchResponse.err) slug) :=
    fun _ => trivial
  exact ⟨hb, fetcher_bad_responses_null "btc" 1000 (fun _ => FetchResponse.err) hb⟩

/-- Function `should_trade` signals BUY below the buy threshold when the circuit
breaker is off. -/
theorem should_trade_buy_of (market_data : MarketData) (j : Journal)
    (hcl : j.consecutive_losses < 3) (hp : market_data.up_price < 0.40) :
    should_trade market_data j = (true, Reason.buySignal) := by
  have hcb : ¬ j.consecutive_losses ≥ CONFIG.circuit_breaker := by
    show ¬ j.consecutive_losses ≥ (3 : Int)
    omega
  have hbt : market_data.up_price < CONFIG.buy_threshold := hp
  unfold should_trade
  rw [if_neg hcb, if_pos hbt]

/-- The per-asset loop writes at most once per fetched asset. -/
theorem cycleLoop_le (nowIso : String) :
    ∀ (ms : List (Option MarketData)) (j : Journal),
      (cycleLoop nowIso ms j).2 ≤ ms.length := by
  intro ms
  induction ms with
  | nil => intro j; exact Nat.le_refl 0
  | cons m ms ih =>
    intro j
    cases m with
    | none =>
      simp only [cycleLoop]
      exact Nat.le_succ_of_le (ih j)
    | some market_data =>
      simp only [cycleLoop]
      by_cases hs : (should_trade market_data j).1
      · rw [if_pos hs]
        simp only [List.length_cons]
        exact Nat.succ_le_succ (ih _)
      · rw [if_neg hs]
        exact Nat.le_succ_of_le (ih j)

/-- C9 (amended): in every successful trading cycle the journal file is
read exactly once and written at most `1 + (number of configured
assets)` times — at most once for the settlement batch plus once per
executed trade, one possible execution per fetched asset. -/
theorem cycle_io_bound (current_time : Int) (nowIso : String)
    (stored : Option Journal) (fetched : List (Option MarketData))
    (j : Journal) (r w : Nat)
    (h : run_trading_cycle current_time nowIso stored fetched = some (j, r, w)) :
    r = 1 ∧ w ≤ 1 + fetched.length := by
  simp only [run_trading_cycle] at h
  cases hcheck : check_closed_positions current_time (load_trades stored) with
  | none => rw [hcheck] at h; simp at h
  | some p =>
    obtain ⟨j1, cnt⟩ := p
    rw [hcheck] at h
    simp only [Option.some.injEq, Prod.mk.injEq] at h
    obtain ⟨-, hr, hw⟩ := h
    refine ⟨hr.symm, ?_⟩
    rw [← hw]
    have h1 : (if 0 < cnt then 1 else 0) ≤ 1 := by
      split_ifs <;> omega
    have h2 := cycleLoop_le nowIso fetched j1
    omega

/-- Witness for C9's amended bound: an empty cycle reads once and
writes nothing. -/
theorem cycle_io_bound_witness :
    run_trading_cycle 0 "t" none [] =
      some ({ trades := [], consecutive_losses := 0, total_pnl := 0 }, 1, 0) ∧
    (1 = 1 ∧ 0 ≤ 1 + ([] : List (Option MarketData)).length) := by
  have hrun : run_trading_cycle 0 "t" none [] =
      some ({ trades := [], consecutive_losses := 0, total_pnl := 0 }, 1, 0) := rfl
  exact ⟨hrun, cycle_io_bound 0 "t" none []
    { trades := [], consecutive_losses := 0, total_pnl := 0 } 1 0 hrun⟩

/-- Counterexample to C9 as stated: with one matured open trade and two
assets both signalling, a single cycle performs three journal writes
(one settlement batch plus two executions), exceeding the claimed bound
of two. -/
theorem cycle_io_counterexample :
    (run_trading_cycle 2000 "t" (some journalB)
        [some (sampleMarket 0.25), some (sampleMarket 0.25)]).map
      (fun x => x.2) = some (1, 3) ∧ ¬ (3 ≤ 2) := by
  constructor
  · have h1 : check_closed_positions 2000 (load_trades (some journalB)) =
        some (journalB1, 1) := rfl
    have hb1 : should_trade (sampleMarket 0.25) journalB1 =
        (true, Reason.buySignal) :=
      should_trade_buy_of (sampleMarket 0.25) journalB1 (by decide)
        (by norm_num [sampleMarket])
    have hb2 : should_trade (sampleMarket 0.25)
        (execute_trade "t" "BUY" (sampleMarket 0.25) journalB1).1 =
        (true, Reason.buySignal) :=
      should_trade_buy_of (sampleMarket 0.25) _ (by decide)
        (by norm_num [sampleMarket])
    simp [run_trading_cycle, h1, cycleLoop, hb1, hb2]
  · decide

end PolymarketTrader
